import Mathlib

/-!
# Embedding of the `sistema-distribuido-de-mensageria` node core

A shallow embedding of the distributed message-board node implemented in
`core/node.py`, `core/auth.py` and `core/message.py`, together with theorems
about its session handling, message store, replication reporting and
offline-simulation behaviour.

Modelling conventions:
* Python dictionaries keyed by strings become association lists with
  insert-or-overwrite semantics (`dictInsert`), preserving insertion order as
  CPython does.
* `hashlib.md5(...).hexdigest()` is deterministic, and no property considered
  here depends on the existence of MD5 collisions, so the digest of a string is
  represented by the string itself (`md5_hex`).  Equal inputs give equal
  digests exactly as in the source.
* Wall-clock reads (`time.time()`) are supplied by the caller as a natural
  number `now` at microsecond resolution.
* The network is an explicit environment `Env`: what each peer port answers to
  a `check_status` probe (`none` = timeout / connection error, which
  `Node._get_peer_status` turns into `None`), and whether a `sync` push to a
  port succeeds.
-/

/-- Little-endian decimal digits of `n`, with `fuel` bounding the recursion
depth (`fuel ≥ n` is enough since `n / 10 < n` for `n > 0`). -/
def decDigitsAux : Nat → Nat → List Nat
  | 0, _ => []
  | f + 1, n => if n = 0 then [] else n % 10 :: decDigitsAux f (n / 10)

/-- Little-endian decimal digits of `n` (empty for `0`). -/
def decDigits (n : Nat) : List Nat := decDigitsAux n n

/-- Recombine little-endian decimal digits into the number they denote. -/
def ofDecDigits : List Nat → Nat
  | [] => 0
  | d :: ds => d + 10 * ofDecDigits ds

/-- `decDigitsAux` does not depend on the fuel as long as it is sufficient. -/
theorem decDigitsAux_fuel_eq : ∀ (f g n : Nat), n ≤ f → n ≤ g →
    decDigitsAux f n = decDigitsAux g n := by
  intro f
  induction f with
  | zero =>
    intro g n hf _
    interval_cases n
    cases g <;> rfl
  | succ f ih =>
    intro g n hf hg
    cases g with
    | zero =>
      interval_cases n
      rfl
    | succ g =>
      by_cases h0 : n = 0
      · simp [decDigitsAux, h0]
      · have hlt : n / 10 < n := Nat.div_lt_self (Nat.pos_of_ne_zero h0) (by norm_num)
        simp only [decDigitsAux, h0, if_false]
        rw [ih g (n / 10) (by omega) (by omega)]

/-- Recombining the digits of `n` gives back `n`. -/
theorem ofDecDigits_decDigits (n : Nat) : ofDecDigits (decDigits n) = n := by
  suffices h : ∀ f n, n ≤ f → ofDecDigits (decDigitsAux f n) = n by
    exact h n n (Nat.le_refl n)
  intro f
  induction f with
  | zero =>
    intro n hf
    interval_cases n
    rfl
  | succ f ih =>
    intro n hf
    by_cases h0 : n = 0
    · simp [decDigitsAux, h0, ofDecDigits]
    · have hlt : n / 10 < n := Nat.div_lt_self (Nat.pos_of_ne_zero h0) (by norm_num)
      simp only [decDigitsAux, h0, if_false, ofDecDigits]
      rw [ih (n / 10) (by omega)]
      exact Nat.mod_add_div n 10

/-- `decDigits` is injective. -/
theorem decDigits_injective {m n : Nat} (h : decDigits m = decDigits n) : m = n := by
  have hm := ofDecDigits_decDigits m
  rw [h, ofDecDigits_decDigits n] at hm
  exact hm.symm

/-- Every digit produced by `decDigitsAux` is below 10. -/
theorem decDigitsAux_lt_ten : ∀ (f n : Nat), ∀ d ∈ decDigitsAux f n, d < 10 := by
  intro f
  induction f with
  | zero => intro n d hd; simp [decDigitsAux] at hd
  | succ f ih =>
    intro n d hd
    by_cases h0 : n = 0
    · simp [decDigitsAux, h0] at hd
    · simp only [decDigitsAux, h0, if_false, List.mem_cons] at hd
      rcases hd with h | h
      · subst h; exact Nat.mod_lt n (by norm_num)
      · exact ih (n / 10) d h

/-- The digit list of a nonzero number is nonempty. -/
theorem decDigits_ne_nil {n : Nat} (h : n ≠ 0) : decDigits n ≠ [] := by
  cases n with
  | zero => exact absurd rfl h
  | succ m => simp [decDigits, decDigitsAux]

/-- Decimal rendering of a natural number, the Lean counterpart of Python's
`str` on the non-negative `int`s appearing in the source (`len(...)`,
microsecond timestamps, ports). -/
def natStr (n : Nat) : String :=
  if n = 0 then "0" else ⟨((decDigits n).map Nat.digitChar).reverse⟩

/-- `Nat.digitChar` tells digits below 10 apart. -/
theorem digitChar_inj_lt : ∀ d < 10, ∀ e < 10,
    Nat.digitChar d = Nat.digitChar e → d = e := by decide

/-- Mapping `Nat.digitChar` over lists of digits below 10 is injective. -/
theorem map_digitChar_inj : ∀ (l1 l2 : List Nat), (∀ d ∈ l1, d < 10) → (∀ d ∈ l2, d < 10) →
    l1.map Nat.digitChar = l2.map Nat.digitChar → l1 = l2 := by
  intro l1
  induction l1 with
  | nil => intro l2 _ _ h; cases l2 <;> simp_all
  | cons d ds ih =>
    intro l2 h1 h2 h
    cases l2 with
    | nil => simp at h
    | cons e es =>
      simp only [List.map_cons, List.cons.injEq] at h
      have hd : d = e := digitChar_inj_lt d (h1 d (by simp)) e (h2 e (by simp)) h.1
      have hds : ds = es := ih es (fun x hx => h1 x (by simp [hx])) (fun x hx => h2 x (by simp [hx])) h.2
      rw [hd, hds]

/-- A nonzero number renders with at least one character, the last digit first. -/
theorem natStr_ne_zero_data {n : Nat} (h : n ≠ 0) :
    (natStr n).data = ((decDigits n).map Nat.digitChar).reverse := by
  simp [natStr, h]

/-- `natStr` is injective: distinct numbers render as distinct strings. -/
theorem natStr_injective {m n : Nat} (h : natStr m = natStr n) : m = n := by
  by_cases hm : m = 0 <;> by_cases hn : n = 0
  · omega
  · exfalso
    have hdata : ("0" : String).data = ((decDigits n).map Nat.digitChar).reverse := by
      rw [← natStr_ne_zero_data hn, ← h, natStr, if_pos hm]
    obtain ⟨d, ds, hd⟩ : ∃ d ds, decDigits n = d :: ds := by
      cases hcase : decDigits n with
      | nil => exact absurd hcase (decDigits_ne_nil hn)
      | cons d ds => exact ⟨d, ds, rfl⟩
    have hrev : (decDigits n).map Nat.digitChar = ['0'] := by
      have h2 := congrArg List.reverse hdata
      simpa using h2.symm
    rw [hd] at hrev
    have hds : ds = [] ∧ Nat.digitChar d = '0' := by
      cases ds with
      | nil => simpa using hrev
      | cons x xs => simp at hrev
    have hd10 : d < 10 := decDigitsAux_lt_ten n n d (by rw [show decDigitsAux n n = decDigits n from rfl, hd]; simp)
    have hd0 : d = 0 := digitChar_inj_lt d hd10 0 (by norm_num) (by rw [hds.2]; rfl)
    have hval := ofDecDigits_decDigits n
    rw [hd, hds.1, hd0] at hval
    simp [ofDecDigits] at hval
    exact hn hval.symm
  · exfalso
    have hdata : ("0" : String).data = ((decDigits m).map Nat.digitChar).reverse := by
      rw [← natStr_ne_zero_data hm, h, natStr, if_pos hn]
    obtain ⟨d, ds, hd⟩ : ∃ d ds, decDigits m = d :: ds := by
      cases hcase : decDigits m with
      | nil => exact absurd hcase (decDigits_ne_nil hm)
      | cons d ds => exact ⟨d, ds, rfl⟩
    have hrev : (decDigits m).map Nat.digitChar = ['0'] := by
      have h2 := congrArg List.reverse hdata
      simpa using h2.symm
    rw [hd] at hrev
    have hds : ds = [] ∧ Nat.digitChar d = '0' := by
      cases ds with
      | nil => simpa using hrev
      | cons x xs => simp at hrev
    have hd10 : d < 10 := decDigitsAux_lt_ten m m d (by rw [show decDigitsAux m m = decDigits m from rfl, hd]; simp)
    have hd0 : d = 0 := digitChar_inj_lt d hd10 0 (by norm_num) (by rw [hds.2]; rfl)
    have hval := ofDecDigits_decDigits m
    rw [hd, hds.1, hd0] at hval
    simp [ofDecDigits] at hval
    exact hm hval.symm
  · have hdata : ((decDigits m).map Nat.digitChar).reverse = ((decDigits n).map Nat.digitChar).reverse := by
      rw [← natStr_ne_zero_data hm, ← natStr_ne_zero_data hn, h]
    have hmap : (decDigits m).map Nat.digitChar = (decDigits n).map Nat.digitChar := by
      have h2 := congrArg List.reverse hdata
      simpa using h2
    have hdig : decDigits m = decDigits n :=
      map_digitChar_inj _ _ (decDigitsAux_lt_ten m m) (decDigitsAux_lt_ten n n) hmap
    exact decDigits_injective hdig

/-! ## Strings as character lists -/

/-- Concatenating strings concatenates their character data. -/
theorem string_append_data (a b : String) : (a ++ b).data = a.data ++ b.data := rfl

/-- If neither prefix contains the separator, a separated concatenation can be
split back apart uniquely (used for the `username_count` token preimages). -/
theorem append_cons_inj {α : Type} (a : α) :
    ∀ (l1 l2 r1 r2 : List α), a ∉ l1 → a ∉ l2 →
    l1 ++ a :: r1 = l2 ++ a :: r2 → l1 = l2 ∧ r1 = r2 := by
  intro l1
  induction l1 with
  | nil =>
    intro l2 r1 r2 _ h2 h
    cases l2 with
    | nil => simpa using h
    | cons x xs =>
      simp only [List.nil_append, List.cons_append, List.cons.injEq] at h
      exact absurd (h.1 ▸ List.mem_cons_self x xs) h2
  | cons x xs ih =>
    intro l2 r1 r2 h1 h2 h
    cases l2 with
    | nil =>
      simp only [List.nil_append, List.cons_append, List.cons.injEq] at h
      exact absurd (h.1.symm ▸ List.mem_cons_self x xs) h1
    | cons y ys =>
      simp only [List.cons_append, List.cons.injEq] at h
      have hxs := ih ys r1 r2 (fun hm => h1 (List.mem_cons_of_mem x hm))
        (fun hm => h2 (h.1 ▸ List.mem_cons_of_mem y hm)) h.2
      exact ⟨by rw [h.1, hxs.1], hxs.2⟩

/-! ## `core/message.py` -/

/-- `Message` from `core/message.py`.  `message_type` is the string
`"public"` or `"private"`; `timestamp` is `time.time()` at microsecond
resolution; `id` is `str(int(time.time() * 1000000))`. -/
structure Message where
  id : String
  content : String
  author : String
  message_type : String
  timestamp : Nat
deriving DecidableEq, Repr

/-- `Message.__init__` with `message_id=None`: the id is derived from the
clock reading `now` (microseconds), the timestamp is the same reading. -/
def mkMessage (content author message_type : String) (now : Nat) : Message :=
  { id := natStr now, content := content, author := author,
    message_type := message_type, timestamp := now }

/-- `Message.is_public`. -/
def Message.is_public (m : Message) : Bool := m.message_type == "public"

/-- Comparison key of `Node._add_message`'s sort: `lambda m: m.timestamp`. -/
def msgLE (a b : Message) : Bool := a.timestamp ≤ b.timestamp

/-! ## Python dictionaries as ordered association lists -/

/-- `d[k] = v` on a Python dict: overwrite in place if the key exists,
append otherwise. -/
def dictInsert (d : List (String × String)) (k v : String) : List (String × String) :=
  if d.any (fun p => p.1 == k) then d.map (fun p => if p.1 == k then (k, v) else p)
  else d ++ [(k, v)]

/-- `del d[k]` / key-absence filter on a Python dict. -/
def dictErase (d : List (String × String)) (k : String) : List (String × String) :=
  d.filter (fun p => p.1 != k)

/-- `k in d` on a Python dict. -/
def dictContains (d : List (String × String)) (k : String) : Bool :=
  d.any (fun p => p.1 == k)

/-- `d.get(k)` on a Python dict. -/
def dictGet (d : List (String × String)) (k : String) : Option String :=
  (d.find? (fun p => p.1 == k)).map Prod.snd

/-! ## `core/auth.py` -/

/-- `hashlib.md5(s.encode()).hexdigest()`, modelled as the identity encoding of
its input (see the module docstring): deterministic, and treated as
collision-free, which is the only divergence of this embedding from the byte
behaviour of MD5. -/
def md5_hex (s : String) : String := s

/-- `AuthManager`: the fixed user/password-hash table and the
`token -> username` map of currently logged-in users. -/
structure AuthManager where
  users : List (String × String)
  logged_users : List (String × String)
deriving DecidableEq, Repr

/-- `AuthManager._hash_password`. -/
def hash_password (password : String) : String := md5_hex password

/-- The preloaded user table of `AuthManager.__init__`. -/
def initUsers : List (String × String) :=
  [("admin", hash_password "admin123"),
   ("user1", hash_password "password1"),
   ("user2", hash_password "password2"),
   ("test", hash_password "test")]

/-- A fresh `AuthManager` (`AuthManager.__init__`). -/
def authInit : AuthManager := { users := initUsers, logged_users := [] }

/-- `AuthManager._generate_token`: the MD5 of `f"{username}_{len(self.logged_users)}"`. -/
def generate_token (am : AuthManager) (username : String) : String :=
  md5_hex (username ++ "_" ++ natStr am.logged_users.length)

/-- `AuthManager.login`: check the user exists, compare password hashes,
generate a token and record it.  Returns the token (or `none`) and the
updated manager. -/
def AuthManager.login (am : AuthManager) (username password : String) :
    Option String × AuthManager :=
  match dictGet am.users username with
  | none => (none, am)
  | some stored =>
    if stored = hash_password password then
      let token := generate_token am username
      (some token, { am with logged_users := dictInsert am.logged_users token username })
    else (none, am)

/-- `AuthManager.logout`: drop the token if present. -/
def AuthManager.logout (am : AuthManager) (token : String) : Bool × AuthManager :=
  if dictContains am.logged_users token then
    (true, { am with logged_users := dictErase am.logged_users token })
  else (false, am)

/-- `AuthManager.is_authenticated`. -/
def AuthManager.is_authenticated (am : AuthManager) (token : String) : Bool :=
  dictContains am.logged_users token

/-- `AuthManager.get_username`. -/
def AuthManager.get_username (am : AuthManager) (token : String) : Option String :=
  dictGet am.logged_users token

/-! ## `core/node.py`: state, environment, wire responses -/

/-- The fields of a peer's `check_status` response that the node reads
(`Node._handle_check_status` on the peer side). -/
structure PeerStatusResp where
  node_id : String
  port : Nat
  active : Bool
  user : Option String
  simulate_offline : Bool
deriving DecidableEq, Repr

/-- The network as seen from one node: what each peer port answers to a
`check_status` probe (`none` when the TCP exchange times out or errors, which
`Node._get_peer_status` collapses to `None`), and whether a `sync` push to
that port comes back with `status == success`. -/
structure Env where
  peer_status : Nat → Option PeerStatusResp
  push_ok : Nat → Bool

/-- Mutable state of `Node` (identity, session flags, offline simulation,
message store, authentication, global-user map). -/
structure NodeState where
  node_id : String
  port : Nat
  peers : List Nat
  active : Bool
  current_user : Option String
  simulate_offline : Bool
  last_seen_message_count : Nat
  was_offline : Bool
  messages : List Message
  message_ids : List String
  auth : AuthManager
  global_users : List (String × String)
deriving Repr

/-- `Node.__init__`: inactive, no user, online, empty store, fresh auth.
The `global_users` values (`node_id`/`port` records) are collapsed to the
owning node id, the only field the code ever writes. -/
def initialNode (node_id : String) (port : Nat) (peers : List Nat) : NodeState :=
  { node_id := node_id, port := port, peers := peers,
    active := false, current_user := none, simulate_offline := false,
    last_seen_message_count := 0, was_offline := false,
    messages := [], message_ids := [], auth := authInit, global_users := [] }

/-- `status` field of a wire response. -/
inductive RStatus where
  | success
  | error
deriving DecidableEq, Repr

/-- Response to `login` (the fields of the dicts `Node._handle_login` builds;
absent fields are `none` / `""`). -/
structure LoginResponse where
  status : RStatus
  message : String
  token : Option String
  username : Option String
  node_id : Option String
deriving DecidableEq, Repr

/-- The delivery report dict returned by `Node._replicate_message_with_report`:
only `message` and `type` are ever returned to the caller. -/
structure DeliveryReport where
  message : String
  rtype : String
deriving DecidableEq, Repr

/-- Response to `post_message`. -/
structure PostResponse where
  status : RStatus
  message : String
  delivery_report : Option DeliveryReport
deriving DecidableEq, Repr

/-- Response to `get_messages`. -/
structure GetMessagesResponse where
  status : RStatus
  messages : List Message
  authenticated : Bool
  node_id : String
deriving DecidableEq, Repr

/-- Response to `logout` / `sync` / other plain-status actions. -/
structure StatusResponse where
  status : RStatus
  message : String
deriving DecidableEq, Repr

/-- The wire fields of a `post_message` request.  The bundled client
(`MessageClient.post_message`) sends `token`, `content` and `visibility`;
the node handler reads `token`, `content` and `message_type` (with default
`"public"`), so both optional fields are carried here. -/
structure PostRequest where
  token : Option String
  content : String
  visibility : Option String
  message_type : Option String
deriving DecidableEq, Repr

/-! ## `core/node.py`: handlers -/

/-- `Node._handle_check_status`: the status dict this node would answer to a
probe, as a `PeerStatusResp`. -/
def handleCheckStatus (st : NodeState) : PeerStatusResp :=
  { node_id := st.node_id, port := st.port, active := st.active,
    user := st.current_user, simulate_offline := st.simulate_offline }

/-- `Node.activate_node`.  The returned flag records whether the call raised:
when the node `was_offline` and was inactive, the code builds a thread with
target `self._sync_missed_messages` — a method that is not defined anywhere in
the repository — so the attribute lookup raises `AttributeError` at that line.
The fields assigned before that line (`active`, `current_user`) keep their new
values; `was_offline` and `last_seen_message_count` are not reached. -/
def activate_node (st : NodeState) (username : String) : NodeState × Bool :=
  let was_inactive := !st.active
  let st1 := { st with active := true, current_user := some username }
  if st1.was_offline && was_inactive then
    (st1, true)
  else
    ({ st1 with last_seen_message_count := st1.messages.length }, false)

/-- `Node.deactivate_node`: clear the session and drop the user from
`global_users`. -/
def deactivate_node (st : NodeState) : NodeState :=
  let st1 := { st with active := false, current_user := none }
  match st.current_user with
  | some u => { st1 with global_users := dictErase st1.global_users u }
  | none => st1

/-- The peer-probing loop at the top of `Node._handle_login`: the first peer
(in `peers` order) whose probe answers with `active` truthy and `user ==
username`; peers that do not respond are skipped silently. -/
def findConflictPeer (env : Env) (peers : List Nat) (username : String) :
    Option (String × Nat) :=
  match peers with
  | [] => none
  | p :: rest =>
    match env.peer_status p with
    | some s =>
      if s.active && s.user == some username then some (s.node_id, p)
      else findConflictPeer env rest username
    | none => findConflictPeer env rest username

/-- The rejection message for a login conflicting with a peer session. -/
def peerConflictMsg (username node_id : String) (port : Nat) : String :=
  "Usuário " ++ username ++ " já está conectado no " ++ node_id ++
    " (porta " ++ natStr port ++ ")"

/-- The rejection message for a login duplicating this node's session. -/
def selfDuplicateMsg (username : String) : String :=
  "Usuário " ++ username ++ " já está conectado neste nó"

/-- `Node._handle_login`.  Checks run in source order: the peer loop first,
then the same-node duplicate, then credentials.  On successful credentials the
node is activated; if `activate_node` raises (see there), the exception
propagates to `Node._handle_client`, which answers `status: error` with
`str(e)` — the state mutations already performed are kept. -/
def handleLogin (st : NodeState) (username password : String) (env : Env) :
    LoginResponse × NodeState :=
  match findConflictPeer env st.peers username with
  | some (nid, p) =>
    ({ status := .error, message := peerConflictMsg username nid p,
       token := none, username := none, node_id := none }, st)
  | none =>
    if st.current_user = some username then
      ({ status := .error, message := selfDuplicateMsg username,
         token := none, username := none, node_id := none }, st)
    else
      match st.auth.login username password with
      | (some token, auth1) =>
        match activate_node { st with auth := auth1 } username with
        | (st2, true) =>
          ({ status := .error,
             message := "Node object has no attribute _sync_missed_messages",
             token := none, username := none, node_id := none }, st2)
        | (st2, false) =>
          ({ status := .success, message := "", token := some token,
             username := some username, node_id := some st.node_id },
           { st2 with global_users := dictInsert st2.global_users username st.node_id })
      | (none, _) =>
        ({ status := .error, message := "Usuário ou senha inválidos",
           token := none, username := none, node_id := none }, st)

/-- `Node._handle_logout`. -/
def handleLogout (st : NodeState) (token : Option String) :
    StatusResponse × NodeState :=
  match token with
  | none => ({ status := .error, message := "Token inválido" }, st)
  | some t =>
    if st.auth.is_authenticated t then
      let st1 := { st with auth := (st.auth.logout t).2 }
      ({ status := .success, message := "Logout realizado com sucesso" },
       deactivate_node st1)
    else ({ status := .error, message := "Token inválido" }, st)

/-- `Node._add_message`: insert if the id is new, then re-sort by timestamp
(Python's stable `list.sort`, modelled by `List.mergeSort`). -/
def addMessage (st : NodeState) (m : Message) : Bool × NodeState :=
  if m.id ∈ st.message_ids then (false, st)
  else
    (true, { st with
      messages := (st.messages ++ [m]).mergeSort msgLE,
      message_ids := st.message_ids ++ [m.id] })

/-- The per-peer record (`port`, `user`, `node_id`) that
`Node._replicate_message_with_report` keeps for each probed peer. -/
structure PeerInfo where
  port : Nat
  user : Option String
  node_id : String
deriving DecidableEq, Repr

/-- Python's rendering of `peer_info['user']` inside an f-string: the username,
or `None` for a peer with no logged-in user. -/
def userText : Option String → String
  | some u => u
  | none => "None"

/-- `f"{n['user']}({n['port']})"`. -/
def fmtPeer (pi : PeerInfo) : String :=
  userText pi.user ++ "(" ++ natStr pi.port ++ ")"

/-- `", ".join(...)` over formatted peers. -/
def joinPeers (ps : List PeerInfo) : String :=
  String.intercalate ", " (ps.map fmtPeer)

/-- The probe record for one peer, if it is reachable. -/
def probePeer (env : Env) (p : Nat) : Option PeerStatusResp := env.peer_status p

/-- The `active_peers` list of `Node._replicate_message_with_report`:
reachable peers reporting `active` truthy and `simulate_offline` falsy,
in `peers` order. -/
def activePeers (env : Env) (peers : List Nat) : List PeerInfo :=
  peers.filterMap (fun p =>
    match env.peer_status p with
    | some s =>
      if s.active && !s.simulate_offline then
        some { port := p, user := s.user, node_id := s.node_id }
      else none
    | none => none)

/-- The `offline_nodes` list of `Node._replicate_message_with_report`:
reachable peers reporting `active` truthy and `simulate_offline` truthy. -/
def offlinePeers (env : Env) (peers : List Nat) : List PeerInfo :=
  peers.filterMap (fun p =>
    match env.peer_status p with
    | some s =>
      if s.active && s.simulate_offline then
        some { port := p, user := s.user, node_id := s.node_id }
      else none
    | none => none)

/-- The `sent_to` list: active peers whose `sync` push came back successful. -/
def sentTo (env : Env) (peers : List Nat) : List PeerInfo :=
  (activePeers env peers).filter (fun pi => env.push_ok pi.port)

/-- The `failed_to` list: active peers whose `sync` push errored or raised. -/
def failedTo (env : Env) (peers : List Nat) : List PeerInfo :=
  (activePeers env peers).filter (fun pi => !env.push_ok pi.port)

/-- `Node._replicate_message_with_report`: probe every peer, partition the
reachable *active* ones by `simulate_offline`, push the message to the active
online ones, and compose the delivery report.  The message itself plays no
role in the report beyond being pushed, and the local store is not touched. -/
def replicateMessage (env : Env) (peers : List Nat) (_m : Message) : DeliveryReport :=
  let active := activePeers env peers
  let offline := offlinePeers env peers
  if active.length = 0 then
    if offline.length > 0 then
      { message := "Mensagem enviada, mas " ++ joinPeers offline ++ " está simulando falha",
        rtype := "recipients_offline" }
    else
      { message := "Mensagem enviada e não recebida, não encontrei nenhum outro nó ativo",
        rtype := "no_recipients" }
  else
    let sent := sentTo env peers
    let failed := failedTo env peers
    if sent.length = active.length && failed.length = 0 then
      if sent.length = 1 then
        { message := "Mensagem enviada, recebida por " ++ joinPeers sent,
          rtype := "all_received" }
      else
        { message := "Mensagem enviada com sucesso, todos receberam",
          rtype := "all_received" }
    else if sent.length > 0 then
      if failed.length > 0 then
        { message := "Mensagem enviada, recebida por " ++ joinPeers sent ++
            " mas não por " ++ joinPeers failed,
          rtype := "partial_received" }
      else
        { message := "Mensagem enviada, recebida por " ++ joinPeers sent,
          rtype := "all_received" }
    else
      { message := "Mensagem não foi entregue a nenhum nó ativo",
        rtype := "delivery_failed" }

/-- Whether `request.get('token')` passes `AuthManager.is_authenticated`
(an absent token is `None`, which is never a key). -/
def tokenOk (st : NodeState) (token : Option String) : Bool :=
  match token with
  | some t => st.auth.is_authenticated t
  | none => false

/-- The message `Node._handle_post_message` constructs once the request is
accepted: author from the validated token, type from the request's
`message_type` field with default `"public"` — the `visibility` field the
bundled client sends is never read. -/
def postedMessage (st : NodeState) (req : PostRequest) (now : Nat) : Message :=
  mkMessage req.content
    (userText ((req.token.map st.auth.get_username).join))
    (req.message_type.getD "public") now

/-- `Node._handle_post_message`: reject while inactive, while simulating
offline, or on a bad token; otherwise build the message, append it locally and
replicate with a delivery report. -/
def handlePostMessage (st : NodeState) (req : PostRequest) (env : Env) (now : Nat) :
    PostResponse × NodeState :=
  if !st.active then
    ({ status := .error, message := "Nó está inativo", delivery_report := none }, st)
  else if st.simulate_offline then
    ({ status := .error, message := "Erro de envio, conexão do nó foi perdida",
       delivery_report := none }, st)
  else if !tokenOk st req.token then
    ({ status := .error, message := "Token inválido", delivery_report := none }, st)
  else
    let message := postedMessage st req now
    let st1 := (addMessage st message).2
    let report := replicateMessage env st.peers message
    ({ status := .success, message := "Mensagem processada",
       delivery_report := some report }, st1)

/-- The authentication test of `Node._handle_get_messages`: a token was sent,
is truthy (Python: the empty string is falsy), and validates. -/
def readAuthenticated (st : NodeState) (token : Option String) : Bool :=
  match token with
  | some t => t != "" && st.auth.is_authenticated t
  | none => false

/-- `Node._handle_get_messages`: always a success response; all messages for an
authenticated reader, only the public ones otherwise.  The node state is not
changed by a read. -/
def handleGetMessages (st : NodeState) (token : Option String) : GetMessagesResponse :=
  if readAuthenticated st token then
    { status := .success, messages := st.messages,
      authenticated := true, node_id := st.node_id }
  else
    { status := .success,
      messages := st.messages.filter (fun m => m.message_type == "public"),
      authenticated := false, node_id := st.node_id }

/-- `Node._handle_sync`: reject while inactive or simulating offline;
otherwise append every received message through `Node._add_message`. -/
def handleSync (st : NodeState) (msgs : List Message) : StatusResponse × NodeState :=
  if !st.active || st.simulate_offline then
    ({ status := .error, message := "Nó indisponível" }, st)
  else
    let st1 := msgs.foldl (fun s m => (addMessage s m).2) st
    ({ status := .success, message := "" }, st1)

/-- `Node._handle_toggle_offline`: flip `simulate_offline`.  Going offline sets
`was_offline`; coming back online only counts and reports unread messages —
no synchronisation with peers happens on this path. -/
def handleToggleOffline (st : NodeState) : StatusResponse × NodeState :=
  let st1 := { st with simulate_offline := !st.simulate_offline }
  if st1.simulate_offline then
    ({ status := .success, message := "Simulação de falha: ATIVADA" },
     { st1 with was_offline := true })
  else
    let unread := st1.messages.length - st1.last_seen_message_count
    let st2 :=
      if unread > 0 then { st1 with last_seen_message_count := st1.messages.length }
      else st1
    ({ status := .success, message := "Simulação de falha: DESATIVADA" }, st2)

/-! ## Request sequences -/

/-- One inbound request, carrying the network environment and clock reading
observed while it was served. -/
inductive Op where
  | login (username password : String) (env : Env)
  | logout (token : Option String)
  | post (req : PostRequest) (env : Env) (now : Nat)
  | syncIn (msgs : List Message)
  | toggle
  | read (token : Option String)

/-- The state reached after serving one request. -/
def stepOp (st : NodeState) : Op → NodeState
  | .login u pw env => (handleLogin st u pw env).2
  | .logout tok => (handleLogout st tok).2
  | .post req env now => (handlePostMessage st req env now).2
  | .syncIn msgs => (handleSync st msgs).2
  | .toggle => (handleToggleOffline st).2
  | .read _ => st

/-- The state reached after serving a sequence of requests. -/
def runOps (st : NodeState) (ops : List Op) : NodeState :=
  ops.foldl stepOp st

/-- The username a request would log in, if it is a login. -/
def Op.loginUser : Op → Option String
  | .login u _ _ => some u
  | _ => none

/-! ## Concrete fixtures -/

/-- A network where no peer answers any probe and every push fails. -/
def envNone : Env := { peer_status := fun _ => none, push_ok := fun _ => false }

/-- `user1` logged in on a fresh `Node1` with an empty peer list. -/
def nodeU1 : NodeState :=
  (handleLogin (initialNode "Node1" 8001 []) "user1" "password1" envNone).2

/-- `user1` logged in on a fresh `Node1` whose peer list is the single
port 8002 (the login succeeded because no peer answered). -/
def nodeU1P : NodeState :=
  (handleLogin (initialNode "Node1" 8001 [8002]) "user1" "password1" envNone).2

/-- A probe answer: `Node2`, active with `user1`, not simulating offline. -/
def statusN2user1 : PeerStatusResp :=
  { node_id := "Node2", port := 8002, active := true,
    user := some "user1", simulate_offline := false }

/-- A probe answer: `Node2`, **inactive** and simulating offline. -/
def statusN2idleOffline : PeerStatusResp :=
  { node_id := "Node2", port := 8002, active := false,
    user := none, simulate_offline := true }

/-- A network where port 8002 answers as an active `user1` session. -/
def envPeerUser1 : Env :=
  { peer_status := fun p => if p = 8002 then some statusN2user1 else none,
    push_ok := fun _ => false }

/-- A network where port 8002 answers as inactive and simulating offline. -/
def envPeerIdleOffline : Env :=
  { peer_status := fun p => if p = 8002 then some statusN2idleOffline else none,
    push_ok := fun _ => false }

/-- The `post_message` request `MessageClient.post_message(content, "private")`
produces: it carries `visibility`, and no `message_type` field. -/
def reqPrivate : PostRequest :=
  { token := some "user1_0", content := "oi", visibility := some "private",
    message_type := none }

/-! ## Session and token invariants -/

/-- A node that only ever serves logins of the single username `u`:
either no session (inactive, no user, no token) or exactly the one
session of `u` (active, `u` current, one live token bound to `u`). -/
def SingleSession (u : String) (st : NodeState) : Prop :=
  (st.active = false ∧ st.current_user = none ∧ st.auth.logged_users = [])
  ∨ (∃ t, st.active = true ∧ st.current_user = some u ∧ st.auth.logged_users = [(t, u)])

/-- The token `AuthManager._generate_token` computes when `k` users are
logged in. -/
def mkToken (u : String) (k : Nat) : String := md5_hex (u ++ "_" ++ natStr k)

/-- The usernames of the preloaded table. -/
def tableNames : List String := initUsers.map Prod.fst

/-- Shape invariant of the token map: the user table is the preloaded one and
every live token is `mkToken u k` for a table username `u` and a count `k`
below the current size of the map. -/
def TokenShape (am : AuthManager) : Prop :=
  am.users = initUsers ∧
  ∀ q ∈ am.logged_users, ∃ u k, u ∈ tableNames ∧ k < am.logged_users.length ∧ q.1 = mkToken u k

/-- The tokens returned by a sequence of `AuthManager.login` calls with no
intervening logout (failed logins return none and are skipped). -/
def loginTokens : AuthManager → List (String × String) → List String
  | _, [] => []
  | am, c :: rest =>
    match am.login c.1 c.2 with
    | (some t, am1) => t :: loginTokens am1 rest
    | (none, am1) => loginTokens am1 rest

/-! ## Theorems -/

attribute [local semireducible] List.mergeSort List.merge

/-- The sort key comparison is transitive. -/
theorem msgLE_trans (a b c : Message) : msgLE a b → msgLE b c → msgLE a c := by
  simp [msgLE]; omega

/-- The sort key comparison is total. -/
theorem msgLE_total (a b : Message) : msgLE a b || msgLE b a := by
  simp [msgLE]; omega

/-- **C1** (code bug).  Toggling the offline simulation never changes the
message store — `Node._handle_toggle_offline` only flips the flag and counts
unread messages, so no catch-up reconciliation runs when a node comes back
online.  Reactivation by login does not recover messages either:
`Node.activate_node` leaves the store untouched, and on the
was-offline-and-inactive path it raises (the thread target
`self._sync_missed_messages` is not defined anywhere in the repository), so
the only reconciliation trigger is dead code. -/
theorem toggle_offline_performs_no_reconciliation (st : NodeState) (username : String) :
    (handleToggleOffline st).2.messages = st.messages
    ∧ (handleToggleOffline st).2.message_ids = st.message_ids
    ∧ (activate_node st username).1.messages = st.messages
    ∧ (st.was_offline = true → st.active = false → (activate_node st username).2 = true) := by
  refine ⟨?_, ?_, ?_, ?_⟩
  · by_cases h : st.simulate_offline <;> simp [handleToggleOffline, h] <;> split <;> rfl
  · by_cases h : st.simulate_offline <;> simp [handleToggleOffline, h] <;> split <;> rfl
  · by_cases h : st.was_offline && !st.active <;> simp [activate_node, h]
  · intro hw ha
    simp [activate_node, hw, ha]

/-- **C2** (code bug).  A `post_message` request exactly as the bundled client
sends it for a *private* post (`visibility = "private"`, no `message_type`
field) is stored as a **public** message: `Node._handle_post_message` reads
`request.get('message_type', 'public')` and never looks at `visibility`.
The author is taken from the validated token, as claimed. -/
theorem post_message_visibility_field_ignored :
    (handlePostMessage nodeU1 reqPrivate envNone 5).2.messages.map
      (fun m => (m.author, m.message_type)) = [("user1", "public")]
    ∧ reqPrivate.visibility = some "private"
    ∧ (handlePostMessage nodeU1 reqPrivate envNone 5).1.status = RStatus.success := by
  decide

/-- **C7** (confirmed).  `Node._add_message` is idempotent on the message id:
a message whose id is already present leaves the pair `(inserted, state)`
exactly `(false, st)` — same size, same contents — while a fresh id is
inserted, reported `true`, grows the store by one and leaves it sorted by
timestamp. -/
theorem add_message_idempotent_by_id (st : NodeState) (m : Message) :
    (m.id ∈ st.message_ids → addMessage st m = (false, st))
    ∧ (m.id ∉ st.message_ids →
      (addMessage st m).1 = true
      ∧ m ∈ (addMessage st m).2.messages
      ∧ (addMessage st m).2.messages.length = st.messages.length + 1
      ∧ List.Pairwise (fun a b => msgLE a b = true) (addMessage st m).2.messages) := by
  constructor
  · intro h; simp [addMessage, h]
  · intro h
    refine ⟨by simp [addMessage, h], ?_, ?_, ?_⟩
    · simp [addMessage, h]
    · simp [addMessage, h]
    · simp only [addMessage, h, if_false]
      exact List.sorted_mergeSort (fun a b c => msgLE_trans a b c) msgLE_total _

/-- **C8** (confirmed).  `Node._handle_get_messages` without a valid token
returns exactly the public sublist of the store in store order; with a valid
token it returns every message; timestamp order is preserved either way. -/
theorem get_messages_visibility_filter (st : NodeState) (tok : Option String) :
    (readAuthenticated st tok = false →
      (handleGetMessages st tok).messages = st.messages.filter (fun m => m.message_type == "public")
      ∧ (∀ m ∈ (handleGetMessages st tok).messages, m.message_type = "public")
      ∧ (∀ m ∈ st.messages, m.message_type = "public" → m ∈ (handleGetMessages st tok).messages))
    ∧ (readAuthenticated st tok = true → (handleGetMessages st tok).messages = st.messages)
    ∧ (List.Pairwise (fun a b => msgLE a b = true) st.messages →
      List.Pairwise (fun a b => msgLE a b = true) (handleGetMessages st tok).messages) := by
  refine ⟨?_, ?_, ?_⟩
  · intro h
    refine ⟨by simp [handleGetMessages, h], ?_, ?_⟩
    · intro m hm
      simp only [handleGetMessages, h, Bool.false_eq_true, if_false, List.mem_filter] at hm
      simpa using hm.2
    · intro m hm hpub
      simp only [handleGetMessages, h, Bool.false_eq_true, if_false, List.mem_filter]
      exact ⟨hm, by simpa using hpub⟩
  · intro h; simp [handleGetMessages, h]
  · intro hs
    by_cases h : readAuthenticated st tok = true
    · simpa [handleGetMessages, h] using hs
    · simp only [handleGetMessages, h, if_false]
      exact List.Pairwise.sublist (List.filter_sublist _) hs

/-- **C10** (confirmed).  A `get_messages` request always yields a success
response carrying the (possibly visibility-filtered) store, whatever the
node's `active`/`simulate_offline` flags; `post_message` is rejected while
inactive or while simulating offline, and `sync` is rejected in either of
those states. -/
theorem reads_always_succeed (st : NodeState) (tok : Option String) (req : PostRequest)
    (env : Env) (now : Nat) (msgs : List Message) :
    (handleGetMessages st tok).status = RStatus.success
    ∧ ((handleGetMessages st tok).messages = st.messages ∨
      (handleGetMessages st tok).messages = st.messages.filter (fun m => m.message_type == "public"))
    ∧ (st.active = false → (handlePostMessage st req env now).1.status = RStatus.error)
    ∧ (st.simulate_offline = true → (handlePostMessage st req env now).1.status = RStatus.error)
    ∧ ((st.active = false ∨ st.simulate_offline = true) → (handleSync st msgs).1.status = RStatus.error) := by
  refine ⟨?_, ?_, ?_, ?_, ?_⟩
  · by_cases h : readAuthenticated st tok = true <;> simp [handleGetMessages, h]
  · by_cases h : readAuthenticated st tok = true
    · left; simp [handleGetMessages, h]
    · right; simp [handleGetMessages, h]
  · intro h; simp [handlePostMessage, h]
  · intro h
    by_cases ha : st.active = true <;> simp [handlePostMessage, h, ha]
  · intro h
    rcases h with h | h
    · simp [handleSync, h]
    · by_cases ha : st.active = true <;> simp [handleSync, h, ha]

/-- **C9** (confirmed).  Once the preconditions pass, the posted message is
appended locally and the local store after the whole call is exactly the
store right after that append, for every network environment: unreachable
peers and failed pushes never remove the local copy. -/
theorem post_retained_locally_despite_peer_failures (st : NodeState) (req : PostRequest)
    (env : Env) (now : Nat) (ha : st.active = true) (hs : st.simulate_offline = false)
    (ht : tokenOk st req.token = true)
    (hfresh : (postedMessage st req now).id ∉ st.message_ids) :
    (handlePostMessage st req env now).1.status = RStatus.success
    ∧ (handlePostMessage st req env now).2.messages = (addMessage st (postedMessage st req now)).2.messages
    ∧ postedMessage st req now ∈ (handlePostMessage st req env now).2.messages := by
  refine ⟨?_, ?_, ?_⟩
  · simp [handlePostMessage, ha, hs, ht]
  · simp [handlePostMessage, ha, hs, ht]
  · simp [handlePostMessage, ha, hs, ht, addMessage, hfresh]

/-- Witness for C9: `user1` posts on `nodeU1` while no peer is reachable and
every push fails; the message is still in the local store afterwards. -/
theorem post_retained_locally_witness :
    (handlePostMessage nodeU1 reqPrivate envNone 5).1.status = RStatus.success
    ∧ (handlePostMessage nodeU1 reqPrivate envNone 5).2.messages =
      (addMessage nodeU1 (postedMessage nodeU1 reqPrivate 5)).2.messages
    ∧ postedMessage nodeU1 reqPrivate 5 ∈ (handlePostMessage nodeU1 reqPrivate envNone 5).2.messages :=
  post_retained_locally_despite_peer_failures nodeU1 reqPrivate envNone 5
    (by decide) (by decide) (by decide) (by decide)

/-- Counterexample to **C3** as stated: after the request sequence
`login user1, login user2, login user1` on a node with no peers, the node
holds **two** live tokens bound to `user1`; and already after the first two
logins the node is active with two users logged in at once. -/
theorem two_live_tokens_for_one_username :
    ((runOps (initialNode "Node1" 8001 [])
        [Op.login "user1" "password1" envNone, Op.login "user2" "password2" envNone,
         Op.login "user1" "password1" envNone]).auth.logged_users.filter
      (fun q => q.2 == "user1")).length = 2
    ∧ (runOps (initialNode "Node1" 8001 [])
        [Op.login "user1" "password1" envNone, Op.login "user2" "password2" envNone]).active = true
    ∧ (runOps (initialNode "Node1" 8001 [])
        [Op.login "user1" "password1" envNone, Op.login "user2" "password2" envNone]).auth.logged_users.length = 2 := by
  decide

/-- Counterexample to **C4** as stated: on a node whose `current_user` is
already `user1` *and* whose peer reports an active `user1` session, the login
is rejected with the message naming the **peer** — the peer loop runs before
the self-duplicate check, not after it. -/
theorem peer_check_precedes_self_check :
    (handleLogin nodeU1P "user1" "password1" envPeerUser1).1.message =
      peerConflictMsg "user1" "Node2" 8002
    ∧ nodeU1P.current_user = some "user1"
    ∧ peerConflictMsg "user1" "Node2" 8002 ≠ selfDuplicateMsg "user1" := by
  decide

/-- Counterexample to **C5** as stated: a reachable peer that is simulating
offline while **inactive** is not named as an offline recipient — it lands in
neither partition class and the report claims no recipients were found. -/
theorem inactive_offline_peer_not_reported :
    envPeerIdleOffline.peer_status 8002 = some statusN2idleOffline
    ∧ statusN2idleOffline.simulate_offline = true
    ∧ replicateMessage envPeerIdleOffline [8002] (mkMessage "x" "user1" "public" 1) =
      { message := "Mensagem enviada e não recebida, não encontrei nenhum outro nó ativo",
        rtype := "no_recipients" } := by
  decide

/-- Counterexample to **C6** as stated: `login user1, logout, login user1`
returns the same token twice — the generator hashes
`f"{username}_{len(logged_users)}"` and the logout resets the count. -/
theorem token_reused_after_logout :
    (authInit.login "user1" "password1").1 = some "user1_0"
    ∧ (((authInit.login "user1" "password1").2.logout "user1_0").2.login
        "user1" "password1").1 = some "user1_0" := by
  decide

/-- The push loop classifies every active peer as sent or failed. -/
theorem length_filter_partition (env : Env) (peers : List Nat) :
    (sentTo env peers).length + (failedTo env peers).length = (activePeers env peers).length := by
  rw [sentTo, failedTo]
  exact (List.length_eq_length_filter_add (fun q : PeerInfo => env.push_ok q.port)).symm

/-- **C4** (amended).  `Node._handle_login` runs its checks in source order:
first the peer loop — rejecting with a message naming the conflicting node
when a reachable peer reports an active session of the same username, and
silently skipping peers that do not respond — *then* the same-node duplicate
check, and only then the credential check, which on success activates the node
with that user (the success response carries the token provided the node was
not in the raising was-offline reactivation path). -/
theorem login_check_order (st : NodeState) (username password : String) (env : Env) :
    (∀ nid p, findConflictPeer env st.peers username = some (nid, p) →
      handleLogin st username password env =
        ({ status := .error, message := peerConflictMsg username nid p,
           token := none, username := none, node_id := none }, st))
    ∧ (findConflictPeer env st.peers username = none → st.current_user = some username →
      handleLogin st username password env =
        ({ status := .error, message := selfDuplicateMsg username,
           token := none, username := none, node_id := none }, st))
    ∧ (findConflictPeer env st.peers username = none → st.current_user ≠ some username →
      (st.auth.login username password).1 = none →
      handleLogin st username password env =
        ({ status := .error, message := "Usuário ou senha inválidos",
           token := none, username := none, node_id := none }, st))
    ∧ (∀ t, findConflictPeer env st.peers username = none → st.current_user ≠ some username →
      (st.auth.login username password).1 = some t →
      (handleLogin st username password env).2.active = true
      ∧ (handleLogin st username password env).2.current_user = some username
      ∧ (st.was_offline = false →
        (handleLogin st username password env).1 =
          { status := .success, message := "", token := some t,
            username := some username, node_id := some st.node_id }))
    ∧ (∀ p ps, env.peer_status p = none →
      findConflictPeer env (p :: ps) username = findConflictPeer env ps username) := by
  refine ⟨?_, ?_, ?_, ?_, ?_⟩
  · intro nid p hfind
    simp [handleLogin, hfind]
  · intro hfind hself
    simp [handleLogin, hfind, hself]
  · intro hfind hself hlog
    rcases hl : st.auth.login username password with ⟨ot, am1⟩
    rw [hl] at hlog
    simp only at hlog
    subst hlog
    simp [handleLogin, hfind, hself, hl]
  · intro t hfind hself hlog
    rcases hl : st.auth.login username password with ⟨ot, am1⟩
    rw [hl] at hlog
    simp only at hlog
    subst hlog
    by_cases hb : st.was_offline && !st.active
    · refine ⟨?_, ?_, ?_⟩
      · simp [handleLogin, hfind, hself, hl, activate_node, hb]
      · simp [handleLogin, hfind, hself, hl, activate_node, hb]
      · intro hwo
        rw [hwo] at hb
        simp at hb
    · refine ⟨?_, ?_, ?_⟩
      · simp [handleLogin, hfind, hself, hl, activate_node, hb]
      · simp [handleLogin, hfind, hself, hl, activate_node, hb]
      · intro hwo
        simp [handleLogin, hfind, hself, hl, activate_node, hb]
  · intro p ps hp
    simp [findConflictPeer, hp]

/-- **C5** (amended).  The delivery report of
`Node._replicate_message_with_report` is composed from the probe results, but
the partition only covers peers that report `active`: reachable-active-online
peers are pushed to, reachable-active-but-simulating-offline peers are named
as offline recipients, and reachable *inactive* peers are ignored exactly like
unreachable ones.  With that partition the five composition rules hold: no
online recipients but some offline ones names the offline peers; none of
either reports no recipients; all pushes succeeding reports delivered-to-all;
a mix reports a partial delivery naming both sides; all pushes failing reports
delivery failed to every reachable active node. -/
theorem delivery_report_composition (env : Env) (peers : List Nat) (m : Message) :
    (activePeers env peers = [] → offlinePeers env peers ≠ [] →
      replicateMessage env peers m =
        { message := "Mensagem enviada, mas " ++ joinPeers (offlinePeers env peers) ++
            " está simulando falha",
          rtype := "recipients_offline" })
    ∧ (activePeers env peers = [] → offlinePeers env peers = [] →
      replicateMessage env peers m =
        { message := "Mensagem enviada e não recebida, não encontrei nenhum outro nó ativo",
          rtype := "no_recipients" })
    ∧ (activePeers env peers ≠ [] → failedTo env peers = [] →
      (replicateMessage env peers m).rtype = "all_received")
    ∧ (sentTo env peers ≠ [] → failedTo env peers ≠ [] →
      replicateMessage env peers m =
        { message := "Mensagem enviada, recebida por " ++ joinPeers (sentTo env peers) ++
            " mas não por " ++ joinPeers (failedTo env peers),
          rtype := "partial_received" })
    ∧ (activePeers env peers ≠ [] → sentTo env peers = [] →
      replicateMessage env peers m =
        { message := "Mensagem não foi entregue a nenhum nó ativo",
          rtype := "delivery_failed" }) := by
  have hlen := length_filter_partition env peers
  refine ⟨?_, ?_, ?_, ?_, ?_⟩
  · intro h1 h2
    have h2' : 0 < (offlinePeers env peers).length := List.length_pos.mpr h2
    simp [replicateMessage, h1, h2', Nat.pos_iff_ne_zero.mp h2']
  · intro h1 h2
    simp [replicateMessage, h1, h2]
  · intro h1 h2
    have h1' : (activePeers env peers).length ≠ 0 := by
      simpa using fun hh => h1 (List.length_eq_zero.mp hh)
    have hsent : (sentTo env peers).length = (activePeers env peers).length := by
      rw [← hlen, h2]; simp
    simp only [replicateMessage, h1', if_false, hsent, h2]
    rw [if_pos (by simp)]
    split <;> rfl
  · intro h1 h2
    have h1' : 0 < (sentTo env peers).length := List.length_pos.mpr h1
    have h2' : 0 < (failedTo env peers).length := List.length_pos.mpr h2
    have hact : (activePeers env peers).length ≠ 0 := by omega
    have hne : ¬((sentTo env peers).length = (activePeers env peers).length ∧
        (failedTo env peers).length = 0) := by omega
    simp only [replicateMessage, hact, if_false]
    rw [if_neg (by simpa using hne), if_pos (by simpa using h1'), if_pos (by simpa using h2')]
  · intro h1 h2
    have h1' : (activePeers env peers).length ≠ 0 := by
      simpa using fun hh => h1 (List.length_eq_zero.mp hh)
    have hs0 : (sentTo env peers).length = 0 := by rw [h2]; rfl
    have hne : ¬((sentTo env peers).length = (activePeers env peers).length ∧
        (failedTo env peers).length = 0) := by omega
    simp only [replicateMessage, h1', if_false]
    rw [if_neg (by simpa using hne), if_neg (by simp [hs0])]

/-- `Node._add_message` leaves the session fields untouched. -/
theorem addMessage_frame (st : NodeState) (m : Message) :
    (addMessage st m).2.active = st.active
    ∧ (addMessage st m).2.current_user = st.current_user
    ∧ (addMessage st m).2.auth = st.auth := by
  unfold addMessage
  split <;> simp

/-- Folding `Node._add_message` over a sync payload leaves the session
fields untouched. -/
theorem foldAddMessage_frame (msgs : List Message) (st : NodeState) :
    (msgs.foldl (fun s m => (addMessage s m).2) st).active = st.active
    ∧ (msgs.foldl (fun s m => (addMessage s m).2) st).current_user = st.current_user
    ∧ (msgs.foldl (fun s m => (addMessage s m).2) st).auth = st.auth := by
  induction msgs generalizing st with
  | nil => exact ⟨rfl, rfl, rfl⟩
  | cons m rest ih =>
    rcases addMessage_frame st m with ⟨h1, h2, h3⟩
    rcases ih (addMessage st m).2 with ⟨g1, g2, g3⟩
    exact ⟨g1.trans h1, g2.trans h2, g3.trans h3⟩

/-- `Node._handle_post_message` leaves the session fields untouched. -/
theorem post_frame (st : NodeState) (req : PostRequest) (env : Env) (now : Nat) :
    (handlePostMessage st req env now).2.active = st.active
    ∧ (handlePostMessage st req env now).2.current_user = st.current_user
    ∧ (handlePostMessage st req env now).2.auth = st.auth := by
  unfold handlePostMessage
  by_cases ha : st.active = true
  · by_cases hs : st.simulate_offline = true
    · simp [ha, hs]
    · by_cases ht : tokenOk st req.token = true
      · simpa [ha, hs, ht] using addMessage_frame st (postedMessage st req now)
      · simp [ha, hs, ht]
  · simp [ha]

/-- `Node._handle_sync` leaves the session fields untouched. -/
theorem sync_frame (st : NodeState) (msgs : List Message) :
    (handleSync st msgs).2.active = st.active
    ∧ (handleSync st msgs).2.current_user = st.current_user
    ∧ (handleSync st msgs).2.auth = st.auth := by
  unfold handleSync
  by_cases h : !st.active || st.simulate_offline
  · simp [h]
  · simpa [h] using foldAddMessage_frame msgs st

/-- `Node._handle_toggle_offline` leaves the session fields untouched. -/
theorem toggle_frame (st : NodeState) :
    (handleToggleOffline st).2.active = st.active
    ∧ (handleToggleOffline st).2.current_user = st.current_user
    ∧ (handleToggleOffline st).2.auth = st.auth := by
  unfold handleToggleOffline
  by_cases h : st.simulate_offline <;> simp [h] <;> split <;> simp

/-- `SingleSession` only reads the session fields, so it transports along
frame equalities. -/
theorem SingleSession_of_frame {u : String} {st st' : NodeState}
    (h1 : st'.active = st.active) (h2 : st'.current_user = st.current_user)
    (h3 : st'.auth = st.auth) (h : SingleSession u st) : SingleSession u st' := by
  rcases h with ⟨hA, hC, hT⟩ | ⟨t, hA, hC, hT⟩
  · exact Or.inl ⟨h1.trans hA, h2.trans hC, by rw [h3]; exact hT⟩
  · exact Or.inr ⟨t, h1.trans hA, h2.trans hC, by rw [h3]; exact hT⟩

/-- Serving one request preserves `SingleSession u` when any login in it is
for `u`. -/
theorem stepOp_single (u : String) (st : NodeState) (op : Op)
    (hop : ∀ v, op.loginUser = some v → v = u)
    (h : SingleSession u st) : SingleSession u (stepOp st op) := by
  cases op with
  | login v pw env =>
    have hv : v = u := hop v rfl
    subst hv
    rw [stepOp]
    cases hf : findConflictPeer env st.peers v with
    | some c =>
      rcases c with ⟨nid, p⟩
      simpa [handleLogin, hf] using h
    | none =>
      by_cases hself : st.current_user = some v
      · simpa [handleLogin, hf, hself] using h
      · rcases h with ⟨hA, hC, hT⟩ | ⟨t, hA, hC, hT⟩
        · cases hg : dictGet st.auth.users v with
          | none =>
            simpa [handleLogin, hf, hself, AuthManager.login, hg] using Or.inl ⟨hA, hC, hT⟩
          | some stored =>
            by_cases hpw : stored = hash_password pw
            · right
              refine ⟨generate_token st.auth v, ?_⟩
              by_cases hb : st.was_offline && !st.active <;>
                simp [handleLogin, hf, hself, AuthManager.login, hg, hpw,
                  activate_node, hb, dictInsert, hT]
            · simpa [handleLogin, hf, hself, AuthManager.login, hg, hpw] using
                Or.inl ⟨hA, hC, hT⟩
        · exact absurd hC hself
  | logout tok =>
    rw [stepOp]
    cases tok with
    | none => simpa [handleLogout] using h
    | some t =>
      rcases h with ⟨hA, hC, hT⟩ | ⟨t0, hA, hC, hT⟩
      · have hna : st.auth.is_authenticated t = false := by
          simp [AuthManager.is_authenticated, dictContains, hT]
        simpa [handleLogout, hna] using Or.inl ⟨hA, hC, hT⟩
      · by_cases he : (t0 == t) = true
        · left
          have he' : t0 = t := by simpa using he
          have hia : st.auth.is_authenticated t = true := by
            simp [AuthManager.is_authenticated, dictContains, hT, he]
          simp [handleLogout, hia, AuthManager.logout, dictContains, dictErase, hT, he, he',
            deactivate_node, hC]
        · have hna : st.auth.is_authenticated t = false := by
            simp [AuthManager.is_authenticated, dictContains, hT]
            simpa using he
          simpa [handleLogout, hna] using Or.inr ⟨t0, hA, hC, hT⟩
  | post req env now =>
    rcases post_frame st req env now with ⟨h1, h2, h3⟩
    exact SingleSession_of_frame h1 h2 h3 h
  | syncIn msgs =>
    rcases sync_frame st msgs with ⟨h1, h2, h3⟩
    exact SingleSession_of_frame h1 h2 h3 h
  | toggle =>
    rcases toggle_frame st with ⟨h1, h2, h3⟩
    exact SingleSession_of_frame h1 h2 h3 h
  | read tok => exact h

/-- Serving a sequence of requests whose logins are all for `u` preserves
`SingleSession u`. -/
theorem runOps_single (u : String) (ops : List Op) (st : NodeState)
    (hops : ∀ op ∈ ops, ∀ v, Op.loginUser op = some v → v = u)
    (h : SingleSession u st) : SingleSession u (runOps st ops) := by
  induction ops generalizing st with
  | nil => exact h
  | cons op rest ih =>
    exact ih (stepOp st op)
      (fun o ho => hops o (List.mem_cons_of_mem _ ho))
      (stepOp_single u st op (hops op (List.mem_cons_self _ _)) h)

/-- **C3** (amended).  Over every request sequence whose logins are all for
one username `u`, the reachable states keep at most one live token per
username, and `active` is true exactly while one user is logged in (exactly
one live token; equivalently, `current_user` is set).  (As stated the claim
fails once logins of distinct usernames interleave: see the counterexample,
where a second user's login leaves the first user's token alive.) -/
theorem single_username_session_invariant (u nid : String) (port : Nat)
    (peers : List Nat) (ops : List Op)
    (hops : ∀ op ∈ ops, ∀ v, Op.loginUser op = some v → v = u) :
    (∀ v, ((runOps (initialNode nid port peers) ops).auth.logged_users.filter
      (fun q => q.2 == v)).length ≤ 1)
    ∧ ((runOps (initialNode nid port peers) ops).active = true ↔
      (runOps (initialNode nid port peers) ops).auth.logged_users.length = 1)
    ∧ ((runOps (initialNode nid port peers) ops).active = true ↔
      (runOps (initialNode nid port peers) ops).current_user ≠ none) := by
  have key : SingleSession u (runOps (initialNode nid port peers) ops) :=
    runOps_single u ops _ hops (Or.inl ⟨rfl, rfl, rfl⟩)
  rcases key with ⟨hA, hC, hT⟩ | ⟨t, hA, hC, hT⟩
  · refine ⟨?_, ?_, ?_⟩ <;> simp [hA, hC, hT]
  · refine ⟨?_, ?_, ?_⟩
    · intro v
      calc ((runOps (initialNode nid port peers) ops).auth.logged_users.filter
          (fun q => q.2 == v)).length
          ≤ (runOps (initialNode nid port peers) ops).auth.logged_users.length :=
            List.length_filter_le _ _
        _ = 1 := by rw [hT]; rfl
    · simp [hA, hT]
    · simp [hA, hC]

/-- Witness for C3: the single request `login user1` on a fresh node. -/
theorem single_username_session_invariant_witness :
    (∀ v, ((runOps (initialNode "Node1" 8001 [])
      [Op.login "user1" "password1" envNone]).auth.logged_users.filter
      (fun q => q.2 == v)).length ≤ 1)
    ∧ ((runOps (initialNode "Node1" 8001 [])
      [Op.login "user1" "password1" envNone]).active = true ↔
      (runOps (initialNode "Node1" 8001 [])
      [Op.login "user1" "password1" envNone]).auth.logged_users.length = 1)
    ∧ ((runOps (initialNode "Node1" 8001 [])
      [Op.login "user1" "password1" envNone]).active = true ↔
      (runOps (initialNode "Node1" 8001 [])
      [Op.login "user1" "password1" envNone]).current_user ≠ none) :=
  single_username_session_invariant "user1" "Node1" 8001 [] _ (by
    intro op ho v hv
    rw [List.mem_singleton] at ho
    subst ho
    simpa [Op.loginUser] using hv.symm)

/-- The character data of a generated token: username, separator, rendered
count. -/
theorem mkToken_data (u : String) (k : Nat) :
    (mkToken u k).data = u.data ++ '_' :: (natStr k).data := by
  show ((u ++ "_") ++ natStr k).data = _
  rw [string_append_data, string_append_data]
  simp

/-- Tokens of underscore-free usernames determine the username and the
count. -/
theorem mkToken_inj {u v : String} {n k : Nat} (hu : '_' ∉ u.data) (hv : '_' ∉ v.data)
    (h : mkToken u n = mkToken v k) : u = v ∧ n = k := by
  have hd := congrArg String.data h
  rw [mkToken_data, mkToken_data] at hd
  obtain ⟨h1, h2⟩ := append_cons_inj '_' u.data v.data _ _ hu hv hd
  exact ⟨String.ext h1, natStr_injective (String.ext h2)⟩

/-- No preloaded username contains an underscore. -/
theorem tableNames_no_underscore : ∀ u ∈ tableNames, '_' ∉ u.data := by decide

/-- A successful `dictGet` witnesses key membership. -/
theorem dictGet_some_mem (d : List (String × String)) (u v : String)
    (h : dictGet d u = some v) : u ∈ d.map Prod.fst := by
  unfold dictGet at h
  cases hf : d.find? (fun p => p.1 == u) with
  | none => rw [hf] at h; simp at h
  | some p =>
    have hp := List.find?_some hf
    have hmem := List.mem_of_find?_eq_some hf
    have hpu : p.1 = u := by simpa using hp
    exact hpu ▸ List.mem_map_of_mem Prod.fst hmem

/-- Under the shape invariant, a freshly generated token differs from every
live one: its count component is the current size of the map, and every live
token embeds a smaller count. -/
theorem generate_token_fresh (am : AuthManager) (u : String) (hu : u ∈ tableNames)
    (hshape : TokenShape am) : ∀ q ∈ am.logged_users, q.1 ≠ generate_token am u := by
  intro q hq heq
  obtain ⟨v, k, hv, hk, hform⟩ := hshape.2 q hq
  have hgen : generate_token am u = mkToken u am.logged_users.length := rfl
  rw [hform, hgen] at heq
  obtain ⟨_, hnk⟩ := mkToken_inj (tableNames_no_underscore v hv)
    (tableNames_no_underscore u hu) heq
  omega

/-- One `AuthManager.login` call preserves the shape invariant; a successful
call appends a fresh token, a failed one changes nothing. -/
theorem login_preserves_TokenShape (am : AuthManager) (u pw : String)
    (hshape : TokenShape am) :
    TokenShape (am.login u pw).2
    ∧ (∀ t, (am.login u pw).1 = some t →
      (am.login u pw).2.logged_users = am.logged_users ++ [(t, u)]
      ∧ ∀ q ∈ am.logged_users, q.1 ≠ t)
    ∧ ((am.login u pw).1 = none → (am.login u pw).2 = am) := by
  cases hg : dictGet am.users u with
  | none =>
    refine ⟨?_, ?_, ?_⟩ <;> simp [AuthManager.login, hg]
    exact hshape
  | some stored =>
    by_cases hpw : stored = hash_password pw
    · have hu : u ∈ tableNames := by
        have := dictGet_some_mem am.users u stored hg
        rwa [hshape.1] at this
      have hfresh : ∀ q ∈ am.logged_users, q.1 ≠ generate_token am u :=
        generate_token_fresh am u hu hshape
      have hany : am.logged_users.any (fun p => p.1 == generate_token am u) = false := by
        rw [List.any_eq_false]
        intro p hp
        simpa using hfresh p hp
      have happ : dictInsert am.logged_users (generate_token am u) u =
          am.logged_users ++ [(generate_token am u, u)] := by
        simp [dictInsert, hany]
      refine ⟨?_, ?_, ?_⟩
      · constructor
        · simpa [AuthManager.login, hg, hpw] using hshape.1
        · intro q hq
          simp only [AuthManager.login, hg, hpw, if_true] at hq ⊢
          rw [happ] at hq ⊢
          rw [List.length_append]
          rcases List.mem_append.mp hq with hold | hnew
          · obtain ⟨v, k, hv, hk, hform⟩ := hshape.2 q hold
            exact ⟨v, k, hv, by omega, hform⟩
          · refine ⟨u, am.logged_users.length, hu, by simp, ?_⟩
            have : q = (generate_token am u, u) := by simpa using hnew
            rw [this]
            rfl
      · intro t ht
        have htg : t = generate_token am u := by
          simpa [AuthManager.login, hg, hpw] using ht.symm
        subst htg
        constructor
        · simpa [AuthManager.login, hg, hpw] using happ
        · exact hfresh
      · intro hnone
        simp [AuthManager.login, hg, hpw] at hnone
    · refine ⟨?_, ?_, ?_⟩ <;> simp [AuthManager.login, hg, hpw]
      exact hshape

/-- Without logouts, the tokens issued so far never recur among live keys,
and the issued list is duplicate-free. -/
theorem loginTokens_nodup_aux : ∀ (creds : List (String × String)) (am : AuthManager),
    TokenShape am →
    (loginTokens am creds).Nodup ∧
    ∀ t ∈ loginTokens am creds, ∀ q ∈ am.logged_users, q.1 ≠ t := by
  intro creds
  induction creds with
  | nil =>
    intro am _
    constructor
    · exact List.nodup_nil
    · intro t ht
      simp [loginTokens] at ht
  | cons c rest ih =>
    intro am hshape
    obtain ⟨hsh1, hsucc, hfail⟩ := login_preserves_TokenShape am c.1 c.2 hshape
    rcases hl : am.login c.1 c.2 with ⟨ot, am1⟩
    rw [hl] at hsh1 hsucc hfail
    simp only at hsh1 hsucc hfail
    cases ot with
    | none =>
      have ham : am1 = am := hfail rfl
      have hunf : loginTokens am (c :: rest) = loginTokens am1 rest := by
        simp only [loginTokens]
        rw [hl]
      rw [hunf, ham]
      exact ih am hshape
    | some t =>
      have hunf : loginTokens am (c :: rest) = t :: loginTokens am1 rest := by
        simp only [loginTokens]
        rw [hl]
      obtain ⟨happ, hfreshq⟩ := hsucc t rfl
      obtain ⟨ihn, ihfresh⟩ := ih am1 hsh1
      constructor
      · rw [hunf]
        refine List.nodup_cons.mpr ⟨?_, ihn⟩
        intro hmem
        exact ihfresh t hmem (t, c.1)
          (by rw [happ]; exact List.mem_append_right _ (by simp)) rfl
      · rw [hunf]
        intro s hs q hq
        rcases List.mem_cons.mp hs with rfl | hs'
        · exact hfreshq q hq
        · exact ihfresh s hs' q (by rw [happ]; exact List.mem_append_left _ hq)

/-- **C6** (amended).  Within one process lifetime, the tokens returned by
every sequence of successful `AuthManager.login` calls **with no intervening
logout** are pairwise distinct: the generated token embeds the current count
of logged-in sessions, which grows by one on every success.  (As stated the
claim fails once a logout intervenes — the count drops back and the generator
input recurs; see the counterexample.) -/
theorem login_tokens_distinct_without_logout (creds : List (String × String)) :
    (loginTokens authInit creds).Nodup :=
  (loginTokens_nodup_aux creds authInit ⟨rfl, by intro q hq; simp [authInit] at hq⟩).1
